import Mathlib

/-!
Formal model of the nonogram game logic of this repository.

`utils.py` contributes `determine_hints` (run-length hints for rows and
columns of a solution grid) and `get_solution` (reading a stored puzzle).
`Nonogram.py` contributes the game state (solution grid, play grid of string
cells `"0"`/`"1"`/`"x"`, hints, tries counter) and the operations `on_click`,
`restart_game`, `check_state` and `load_puzzle`.  UI rendering (`draw`,
dialogs, labels) is modelled only through an explicit effect trace.
-/

/-- Per-line scan of `determine_hints` (`utils.py`): walk the line keeping a
run counter `count`; a cell equal to `1` increments it, any other cell emits a
positive counter and resets it; a positive counter is emitted once more after
the scan. -/
def hintScan : List Nat → Nat → List Nat
  | [], count => if 0 < count then [count] else []
  | v :: rest, count =>
    if v = 1 then hintScan rest (count + 1)
    else if 0 < count then count :: hintScan rest 0
    else hintScan rest 0

/-- Column `c` of the solution, read top to bottom, exactly as the column loop
of `determine_hints` reads `solution[row][col]` for increasing `row`.
Out-of-range reads default to `0`; the caller guarantees rectangularity. -/
def colCells (solution : List (List Nat)) (c : Nat) : List Nat :=
  solution.map (fun r => r.getD c 0)

/-- Model of `determine_hints` from `utils.py`: the pair `(column_hints, row_hints)`,
one scanned hint line per column (over `range len(solution[0])`) and one per
row (in row order). -/
def determine_hints (solution : List (List Nat)) :
    List (List Nat) × List (List Nat) :=
  ((List.range (solution.headD []).length).map (fun c => hintScan (colCells solution c) 0),
   solution.map (fun r => hintScan r 0))

/-- Specification of run-length encoding: cut the line at every non-filled
cell (`splitOnP`), so that the non-empty chunks are exactly the maximal
contiguous blocks of filled (`= 1`) cells, and list their lengths in scan
order. -/
def runLengths (line : List Nat) : List Nat :=
  ((line.splitOnP (fun v => !(v == 1))).map List.length).filter (fun n => decide (0 < n))

lemma runLengths_replicate_ones (c : Nat) :
    runLengths (List.replicate c 1) = if 0 < c then [c] else [] := by
  unfold runLengths
  rw [List.splitOnP_eq_single]
  · by_cases hc : 0 < c <;> simp [List.filter_cons, hc]
  · intro x hx
    simp [List.eq_of_mem_replicate hx]

lemma hintScan_eq_runLengths (l : List Nat) :
    ∀ c, hintScan l c = runLengths (List.replicate c 1 ++ l) := by
  induction l with
  | nil =>
    intro c
    simp [hintScan, runLengths_replicate_ones]
  | cons v rest ih =>
    intro c
    by_cases hv : v = 1
    · subst hv
      have harr : List.replicate c 1 ++ 1 :: rest = List.replicate (c + 1) 1 ++ rest := by
        rw [List.replicate_succ', List.append_assoc]
        rfl
      rw [harr, ← ih (c + 1)]
      simp [hintScan]
    · have hsplit : (List.replicate c 1 ++ v :: rest).splitOnP (fun u => !(u == 1)) =
          List.replicate c 1 :: rest.splitOnP (fun u => !(u == 1)) := by
        refine List.splitOnP_first _ _ ?_ v (by simp [hv]) rest
        intro x hx
        simp [List.eq_of_mem_replicate hx]
      have hrest : hintScan rest 0 = runLengths rest := by
        simpa using ih 0
      by_cases hc : 0 < c <;>
        simp [hintScan, hv, hc, runLengths, hsplit, List.filter_cons, hrest]

lemma hintScan_zero (l : List Nat) : hintScan l 0 = runLengths l := by
  simpa using hintScan_eq_runLengths l 0

/-- C1: for every non-empty rectangular binary solution grid, `determine_hints`
returns, for each column in column order (scanned top to bottom) and for each
row in row order (scanned left to right), exactly the run-length encoding of
that line — the lengths of its maximal contiguous blocks of filled cells in
scan order, the empty sequence when the line has no filled cell. -/
theorem determine_hints_rle (solution : List (List Nat))
    (_hne : solution ≠ [])
    (_hrect : ∀ r ∈ solution, r.length = (solution.headD []).length)
    (_hbin : ∀ r ∈ solution, ∀ v ∈ r, v = 0 ∨ v = 1) :
    determine_hints solution =
      ((List.range (solution.headD []).length).map (fun c => runLengths (colCells solution c)),
       solution.map runLengths) := by
  unfold determine_hints
  simp [hintScan_zero]

/-- Witness for `determine_hints_rle` at the concrete grid
`[[1,1,0],[0,1,1]]`. -/
theorem determine_hints_rle_witness :
    determine_hints [[1, 1, 0], [0, 1, 1]] =
      ((List.range 3).map (fun c => runLengths (colCells [[1, 1, 0], [0, 1, 1]] c)),
       [[1, 1, 0], [0, 1, 1]].map runLengths) :=
  determine_hints_rle [[1, 1, 0], [0, 1, 1]] (by decide) (by decide) (by decide)

lemma hintScan_pos (l : List Nat) : ∀ c, ∀ v ∈ hintScan l c, 0 < v := by
  induction l with
  | nil =>
    intro c v hv
    rw [hintScan] at hv
    split at hv
    · next hc => simp at hv; omega
    · simp at hv
  | cons w rest ih =>
    intro c v hv
    rw [hintScan] at hv
    split at hv
    · exact ih (c + 1) v hv
    · split at hv
      · next hc =>
        rcases List.mem_cons.1 hv with h | h
        · omega
        · exact ih 0 v h
      · exact ih 0 v hv

lemma hintScan_sum (l : List Nat) : ∀ c, (hintScan l c).sum = c + l.count 1 := by
  induction l with
  | nil =>
    intro c
    by_cases hc : 0 < c <;> (simp [hintScan, hc]; try omega)
  | cons v rest ih =>
    intro c
    by_cases hv : v = 1
    · subst hv
      simp [hintScan, ih (c + 1), List.count_cons]
      omega
    · by_cases hc : 0 < c <;>
        (simp [hintScan, hv, hc, ih 0, List.count_cons]; try omega)

lemma count_one_eq_range_sum (l : List Nat) :
    l.count 1 = ((List.range l.length).map (fun c => if l.getD c 0 = 1 then 1 else 0)).sum := by
  induction l with
  | nil => simp
  | cons a l ih =>
    rw [List.count_cons]
    simp only [List.length_cons, List.range_succ_eq_map, List.map_cons, List.map_map,
      List.sum_cons, List.getD_cons_zero]
    have hcomp : (fun c => if (a :: l).getD c 0 = 1 then 1 else 0) ∘ Nat.succ
        = fun c => if l.getD c 0 = 1 then 1 else 0 := by
      funext c
      simp [List.getD_cons_succ]
    rw [hcomp, ← ih]
    by_cases ha : a = 1 <;> (simp [ha]; try omega)

lemma sum_map_add {γ : Type} (L : List γ) (a b : γ → Nat) :
    (L.map (fun c => a c + b c)).sum = (L.map a).sum + (L.map b).sum := by
  induction L with
  | nil => simp
  | cons x L ih => simp [ih]; omega

lemma sum_row_counts_eq_sum_col_counts (W : Nat) :
    ∀ sol : List (List Nat), (∀ r ∈ sol, r.length = W) →
      (sol.map (fun r => r.count 1)).sum =
        ((List.range W).map (fun c => (colCells sol c).count 1)).sum := by
  intro sol
  induction sol with
  | nil => intro _; simp [colCells]
  | cons r rows ih =>
    intro hrect
    have hr : r.length = W := hrect r (List.mem_cons_self r rows)
    have hrows : ∀ q ∈ rows, q.length = W := fun q hq => hrect q (List.mem_cons_of_mem r hq)
    simp only [List.map_cons, List.sum_cons]
    calc r.count 1 + (rows.map (fun q => q.count 1)).sum
        = ((List.range W).map (fun c => if r.getD c 0 = 1 then 1 else 0)).sum
          + ((List.range W).map (fun c => (colCells rows c).count 1)).sum := by
          rw [← ih hrows, ← hr, ← count_one_eq_range_sum]
      _ = ((List.range W).map
            (fun c => (if r.getD c 0 = 1 then 1 else 0) + (colCells rows c).count 1)).sum := by
          rw [sum_map_add]
      _ = ((List.range W).map (fun c => (colCells (r :: rows) c).count 1)).sum := by
          rw [show (fun c => (if r.getD c 0 = 1 then 1 else 0) + (colCells rows c).count 1)
              = (fun c => (colCells (r :: rows) c).count 1) from ?_]
          funext c
          by_cases h : r.getD c 0 = 1 <;> simp [colCells, List.count_cons, h] <;> omega

/-- C10: for a non-empty rectangular grid, `determine_hints` yields one hint
line per row and one per column, every hint value is strictly positive, each
row's (resp. column's) hint sum equals the number of filled cells of that row
(resp. column), and hence the grand totals of the row hints and of the column
hints agree. -/
theorem determine_hints_structure (solution : List (List Nat))
    (_hne : solution ≠ [])
    (hrect : ∀ r ∈ solution, r.length = (solution.headD []).length) :
    (determine_hints solution).2.length = solution.length ∧
    (determine_hints solution).1.length = (solution.headD []).length ∧
    (∀ h ∈ (determine_hints solution).2, ∀ v ∈ h, 0 < v) ∧
    (∀ h ∈ (determine_hints solution).1, ∀ v ∈ h, 0 < v) ∧
    (∀ i, i < solution.length →
      ((determine_hints solution).2.getD i []).sum = (solution.getD i []).count 1) ∧
    (∀ c, c < (solution.headD []).length →
      ((determine_hints solution).1.getD c []).sum = (colCells solution c).count 1) ∧
    ((determine_hints solution).2.map List.sum).sum
      = ((determine_hints solution).1.map List.sum).sum := by
  refine ⟨by simp [determine_hints], by simp [determine_hints], ?_, ?_, ?_, ?_, ?_⟩
  · intro h hh v hv
    simp only [determine_hints, List.mem_map] at hh
    obtain ⟨r, _, rfl⟩ := hh
    exact hintScan_pos r 0 v hv
  · intro h hh v hv
    simp only [determine_hints, List.mem_map] at hh
    obtain ⟨c, _, rfl⟩ := hh
    exact hintScan_pos _ 0 v hv
  · intro i hi
    have h2 : (determine_hints solution).2 = solution.map (fun r => hintScan r 0) := rfl
    rw [h2, List.getD_eq_getElem _ _ (by simpa using hi),
      List.getD_eq_getElem _ _ hi, List.getElem_map]
    simpa using hintScan_sum solution[i] 0
  · intro c hc
    have h1 : (determine_hints solution).1
        = (List.range (solution.headD []).length).map
            (fun c => hintScan (colCells solution c) 0) := rfl
    rw [h1, List.getD_eq_getElem _ _ (by simpa using hc), List.getElem_map]
    simp only [List.getElem_range]
    simpa using hintScan_sum (colCells solution c) 0
  · have hrow : ((determine_hints solution).2.map List.sum).sum
        = (solution.map (fun r => r.count 1)).sum := by
      have hm : (determine_hints solution).2.map List.sum
          = solution.map (fun r => (hintScan r 0).sum) := by
        simp [determine_hints, List.map_map, Function.comp]
      rw [hm, show (fun r : List Nat => (hintScan r 0).sum)
          = (fun r : List Nat => r.count 1) from funext fun r => by
            simpa using hintScan_sum r 0]
    have hcol : ((determine_hints solution).1.map List.sum).sum
        = ((List.range (solution.headD []).length).map
            (fun c => (colCells solution c).count 1)).sum := by
      have hm : (determine_hints solution).1.map List.sum
          = (List.range (solution.headD []).length).map
              (fun c => (hintScan (colCells solution c) 0).sum) := by
        simp [determine_hints, List.map_map, Function.comp]
      rw [hm, show (fun c => (hintScan (colCells solution c) 0).sum)
          = (fun c => (colCells solution c).count 1) from funext fun c => by
            simpa using hintScan_sum (colCells solution c) 0]
    rw [hrow, hcol]
    exact sum_row_counts_eq_sum_col_counts _ solution hrect

/-- Witness for `determine_hints_structure` at the concrete grid
`[[1,0],[1,1]]`. -/
theorem determine_hints_structure_witness :
    ((determine_hints [[1, 0], [1, 1]]).2.map List.sum).sum
      = ((determine_hints [[1, 0], [1, 1]]).1.map List.sum).sum :=
  (determine_hints_structure [[1, 0], [1, 1]] (by decide) (by decide)).2.2.2.2.2.2

/-- Game state of the `Nonogram` class: the fields that carry game logic
(`solution`, `n_columns`, `n_rows`, `grid`, `column_hints`, `row_hints`,
`tries_left`).  Play-grid cells are the source's string tags: `"0"` unmarked,
`"1"` filled, `"x"` crossed.  `tries_left` is an integer as in Python. -/
structure Game where
  solution : List (List Nat)
  n_columns : Nat
  n_rows : Nat
  grid : List (List String)
  column_hints : List (List Nat)
  row_hints : List (List Nat)
  tries_left : Int
  deriving DecidableEq

/-- Effects signalled to the presentation layer, in chronological order:
the three dialogs of `on_click` plus a marker for the point at which
`restart_game` runs inside the game-over branch. -/
inductive Effect where
  | mistakeDialog
  | gameOverDialog
  | wonDialog
  | restartPerformed
  deriving DecidableEq

/-- Outcome of `load_puzzle`: success, or the `FileNotFoundError` branch that
reports a missing puzzle resource. -/
inductive LoadResult where
  | ok
  | puzzleNotFound
  deriving DecidableEq

/-- Read `grid[y][x]` of the play grid (out-of-range reads default to `""`;
all operations are used in bounds, as the source assumes). -/
def cellAt (g : Game) (y x : Nat) : String :=
  (g.grid.getD y []).getD x ""

/-- Read `solution[r][c]` of the solution grid (default `0` out of range). -/
def solAt (g : Game) (r c : Nat) : Nat :=
  (g.solution.getD r []).getD c 0

/-- Write `grid[y][x] = v`. -/
def setCell (grid : List (List String)) (y x : Nat) (v : String) : List (List String) :=
  grid.set y ((grid.getD y []).set x v)

/-- Fresh all-unmarked play grid, as built in `__init__` and `restart_game`. -/
def emptyGrid (rows cols : Nat) : List (List String) :=
  List.replicate rows (List.replicate cols "0")

/-- Model of `check_state` of `Nonogram.py`: scan every play-grid position `(i, j)`;
if the solution marks `solution[n_rows - i - 1][j]` filled, the play cell
`grid[i][j]` must be `"1"`; early-return-false loops become `List.all`. -/
def check_state (g : Game) : Bool :=
  (List.range g.n_rows).all fun i =>
    (List.range g.n_columns).all fun j =>
      if solAt g (g.n_rows - i - 1) j = 1 then cellAt g i j == "1" else true

/-- Model of `restart_game` of `Nonogram.py`: reset the play grid to all-unmarked,
reset `tries_left` to the configured maximum (`MAX_TRIES`, from the external
`settings` module, threaded as the `maxTries` parameter), and recompute the
hints from the current solution. -/
def restart_game (maxTries : Int) (g : Game) : Game :=
  { g with
    grid := emptyGrid g.n_rows g.n_columns
    tries_left := maxTries
    column_hints := (determine_hints g.solution).1
    row_hints := (determine_hints g.solution).2 }

/-- Win check performed at the end of `on_click`: the won dialog is shown
when `check_state` holds. -/
def winEffects (g : Game) : List Effect :=
  if check_state g then [Effect.wonDialog] else []

/-- Model of `on_click` of `Nonogram.py` for a validated in-bounds click at play-grid
column `x`, row `y`.  Button `1` is a primary (left) click: on an `"0"` cell,
either mark `"1"` when `solution[n_rows - y - 1][x] == 1`, or mark `"x"`,
decrement `tries_left`, and when it reaches `0` show the game-over dialog and
restart (returning early), otherwise show the mistake dialog.  Button `3` is a
secondary (right) click toggling `"0"` and `"x"`.  Every path that does not
return early ends with the win check.  Returns the new state and the effect
trace in chronological order. -/
def on_click (maxTries : Int) (g : Game) (button x y : Nat) : Game × List Effect :=
  if button = 1 then
    if cellAt g y x = "0" then
      if solAt g (g.n_rows - y - 1) x = 1 then
        let g' : Game := { g with grid := setCell g.grid y x "1" }
        (g', winEffects g')
      else
        let g' : Game :=
          { g with grid := setCell g.grid y x "x", tries_left := g.tries_left - 1 }
        if g'.tries_left = 0 then
          (restart_game maxTries g', [Effect.gameOverDialog, Effect.restartPerformed])
        else
          (g', Effect.mistakeDialog :: winEffects g')
    else (g, winEffects g)
  else if button = 3 then
    if cellAt g y x = "0" then
      let g' : Game := { g with grid := setCell g.grid y x "x" }
      (g', winEffects g')
    else if cellAt g y x = "x" then
      let g' : Game := { g with grid := setCell g.grid y x "0" }
      (g', winEffects g')
    else (g, winEffects g)
  else (g, winEffects g)

/-- Model of `get_solution` of `utils.py`, with the puzzle-file store shallowly
embedded as a map `env` from puzzle number to the parsed grid of a stored,
well-formed resource (`none` when `puzzles/puzzle_<n>.txt` does not exist;
malformed content is undefined behaviour and outside the model). -/
def get_solution (env : Nat → Option (List (List Nat))) (n : Nat) :
    Option (List (List Nat)) :=
  env n

/-- Model of `load_puzzle` of `Nonogram.py`: read the requested solution; on success
replace the solution and dimensions and restart; on `FileNotFoundError`
report the failure and leave the state untouched. -/
def load_puzzle (maxTries : Int) (env : Nat → Option (List (List Nat)))
    (g : Game) (n : Nat) : Game × LoadResult :=
  match get_solution env n with
  | none => (g, LoadResult.puzzleNotFound)
  | some sol =>
    (restart_game maxTries
      { g with
        solution := sol
        n_columns := (sol.headD []).length
        n_rows := sol.length },
     LoadResult.ok)

/-- Initial state built by `__init__` for a given starting solution:
dimensions from the solution, all-unmarked grid, hints from
`determine_hints`, `tries_left = MAX_TRIES`. -/
def initGame (maxTries : Int) (sol : List (List Nat)) : Game where
  solution := sol
  n_columns := (sol.headD []).length
  n_rows := sol.length
  grid := emptyGrid sol.length (sol.headD []).length
  column_hints := (determine_hints sol).1
  row_hints := (determine_hints sol).2
  tries_left := maxTries

/-- States reachable from a fresh start by in-bounds clicks, restarts and
puzzle loads. -/
inductive Reachable (maxTries : Int) (env : Nat → Option (List (List Nat))) : Game → Prop
  | start (sol : List (List Nat)) : Reachable maxTries env (initGame maxTries sol)
  | click (g : Game) (button x y : Nat) (hg : Reachable maxTries env g)
      (hy : y < g.n_rows) (hx : x < g.n_columns) :
      Reachable maxTries env (on_click maxTries g button x y).1
  | restart (g : Game) (hg : Reachable maxTries env g) :
      Reachable maxTries env (restart_game maxTries g)
  | load (g : Game) (n : Nat) (hg : Reachable maxTries env g) :
      Reachable maxTries env (load_puzzle maxTries env g n).1

lemma check_state_iff_aux (g : Game) :
    check_state g = true ↔
      ∀ r c : Nat, r < g.n_rows → c < g.n_columns →
        solAt g r c = 1 → cellAt g (g.n_rows - r - 1) c = "1" := by
  unfold check_state
  simp only [List.all_eq_true, List.mem_range]
  constructor
  · intro h r c hr hc hs
    have hi : g.n_rows - r - 1 < g.n_rows := by omega
    have h2 := h _ hi c hc
    rw [show g.n_rows - (g.n_rows - r - 1) - 1 = r from by omega, if_pos hs] at h2
    simpa using h2
  · intro h i hi j hj
    by_cases hs : solAt g (g.n_rows - i - 1) j = 1
    · rw [if_pos hs]
      have hr : g.n_rows - i - 1 < g.n_rows := by omega
      have h2 := h _ _ hr hj hs
      rw [show g.n_rows - (g.n_rows - i - 1) - 1 = i from by omega] at h2
      simpa using h2
    · rw [if_neg hs]

/-- C2: `check_state` is a pure function of the state, true if and only if
every solution-filled cell — solution position `(r, c)`, rendered at play-grid
row `n_rows - r - 1` — is `"1"` in the play grid; cells the solution leaves
empty are never consulted, so no constraint is placed on them. -/
theorem check_state_true_iff (g : Game) :
    check_state g = true ↔
      ∀ r c : Nat, r < g.n_rows → c < g.n_columns →
        solAt g r c = 1 → cellAt g (g.n_rows - r - 1) c = "1" :=
  check_state_iff_aux g

/-- C9: a primary click on an already `"1"` (filled) or `"x"` (crossed) cell
leaves the entire game state — grid, tries counter, solution, and hints —
unchanged. -/
theorem primary_click_marked_noop (maxTries : Int) (g : Game) (x y : Nat)
    (h : cellAt g y x = "1" ∨ cellAt g y x = "x") :
    (on_click maxTries g 1 x y).1 = g := by
  have h0 : ¬(cellAt g y x = "0") := by
    rcases h with h | h <;> simp [h]
  simp [on_click, h0]

/-- Witness for `primary_click_marked_noop`: a primary click on the crossed
cell of a one-cell grid changes nothing. -/
theorem primary_click_marked_noop_witness :
    (on_click 3 (Game.mk [[0]] 1 1 [["x"]] [[]] [[]] 3) 1 0 0).1
      = Game.mk [[0]] 1 1 [["x"]] [[]] [[]] 3 :=
  primary_click_marked_noop 3 (Game.mk [[0]] 1 1 [["x"]] [[]] [[]] 3) 0 0
    (Or.inr (by decide))

lemma set_getD_self {α : Type} (l : List α) :
    ∀ (i : Nat) (d : α), i < l.length → l.set i (l.getD i d) = l := by
  induction l with
  | nil => intro i d h; simp at h
  | cons a l ih =>
    intro i d h
    cases i with
    | zero => simp
    | succ i =>
      have h2 := ih i d (by simpa using h)
      show a :: l.set i (l.getD i d) = a :: l
      rw [h2]

lemma getD_set_row (grid : List (List String)) (y : Nat) (row : List String)
    (hy : y < grid.length) :
    (grid.set y row).getD y [] = row := by
  rw [List.getD_eq_getElem?_getD, List.getElem?_set_self (by simpa using hy)]
  rfl

lemma getD_setCell_self (grid : List (List String)) (y x : Nat) (v : String)
    (hy : y < grid.length) (hx : x < (grid.getD y []).length) :
    ((setCell grid y x v).getD y []).getD x "" = v := by
  unfold setCell
  rw [getD_set_row grid y _ hy]
  rw [List.getD_eq_getElem?_getD, List.getElem?_set_self (by simpa using hx)]
  rfl

lemma setCell_setCell (grid : List (List String)) (y x : Nat) (v w : String) :
    setCell (setCell grid y x v) y x w = setCell grid y x w := by
  by_cases hy : y < grid.length
  · unfold setCell
    rw [getD_set_row grid y _ hy, List.set_set, List.set_set]
  · unfold setCell
    have h1 : grid.set y ((grid.getD y []).set x v) = grid :=
      List.set_eq_of_length_le (by omega)
    rw [h1]

lemma setCell_roundtrip (grid : List (List String)) (y x : Nat) (v : String)
    (hy : y < grid.length) (hx : x < (grid.getD y []).length)
    (hv : (grid.getD y []).getD x "" = v) :
    setCell grid y x v = grid := by
  unfold setCell
  rw [← hv, set_getD_self _ x "" hx]
  exact set_getD_self grid y [] hy

lemma game_grid_update_self (g : Game) (X : List (List String)) (h : X = g.grid) :
    ({ g with grid := X } : Game) = g := by
  subst h
  rfl

lemma on_click_right_zero (maxTries : Int) (g : Game) (x y : Nat)
    (h0 : cellAt g y x = "0") :
    (on_click maxTries g 3 x y).1 = { g with grid := setCell g.grid y x "x" } := by
  simp [on_click, h0]

lemma on_click_right_cross (maxTries : Int) (g : Game) (x y : Nat)
    (hc : cellAt g y x = "x") :
    (on_click maxTries g 3 x y).1 = { g with grid := setCell g.grid y x "0" } := by
  have h0 : ¬(cellAt g y x = "0") := by simp [hc]
  simp [on_click, h0, hc]

lemma on_click_right_other (maxTries : Int) (g : Game) (x y : Nat)
    (h0 : ¬(cellAt g y x = "0")) (hc : ¬(cellAt g y x = "x")) :
    (on_click maxTries g 3 x y).1 = g := by
  simp [on_click, h0, hc]

/-- C6: a secondary click toggles the clicked cell strictly between `"0"` and
`"x"` without consulting the solution, never changes the tries counter, is a
no-op on a `"1"` cell, and two consecutive secondary clicks on the same cell
restore the whole state (toggle of period 2). -/
theorem secondary_click_toggle (maxTries : Int) (g : Game) (x y : Nat)
    (hy : y < g.grid.length) (hx : x < (g.grid.getD y []).length) :
    (on_click maxTries g 3 x y).1.tries_left = g.tries_left ∧
    (on_click maxTries g 3 x y).1.solution = g.solution ∧
    (cellAt g y x = "0" → cellAt (on_click maxTries g 3 x y).1 y x = "x") ∧
    (cellAt g y x = "x" → cellAt (on_click maxTries g 3 x y).1 y x = "0") ∧
    (cellAt g y x = "1" → (on_click maxTries g 3 x y).1 = g) ∧
    (on_click maxTries (on_click maxTries g 3 x y).1 3 x y).1 = g := by
  by_cases h0 : cellAt g y x = "0"
  · have e1 := on_click_right_zero maxTries g x y h0
    have hcell1 : cellAt (on_click maxTries g 3 x y).1 y x = "x" := by
      rw [e1]
      show ((setCell g.grid y x "x").getD y []).getD x "" = "x"
      exact getD_setCell_self g.grid y x "x" hy hx
    have e2 :=
      on_click_right_cross maxTries (on_click maxTries g 3 x y).1 x y hcell1
    refine ⟨by rw [e1], by rw [e1], fun _ => hcell1, ?_, ?_, ?_⟩
    · intro h; rw [h0] at h; exact absurd h (by decide)
    · intro h; rw [h0] at h; exact absurd h (by decide)
    · rw [e2, e1]
      show ({ g with grid := setCell (setCell g.grid y x "x") y x "0" } : Game) = g
      rw [setCell_setCell, setCell_roundtrip g.grid y x "0" hy hx h0]
  · by_cases hc : cellAt g y x = "x"
    · have e1 := on_click_right_cross maxTries g x y hc
      have hcell1 : cellAt (on_click maxTries g 3 x y).1 y x = "0" := by
        rw [e1]
        show ((setCell g.grid y x "0").getD y []).getD x "" = "0"
        exact getD_setCell_self g.grid y x "0" hy hx
      have e2 :=
        on_click_right_zero maxTries (on_click maxTries g 3 x y).1 x y hcell1
      refine ⟨by rw [e1], by rw [e1], ?_, fun _ => hcell1, ?_, ?_⟩
      · intro h; exact absurd h h0
      · intro h; rw [hc] at h; exact absurd h (by decide)
      · rw [e2, e1]
        show ({ g with grid := setCell (setCell g.grid y x "0") y x "x" } : Game) = g
        rw [setCell_setCell, setCell_roundtrip g.grid y x "x" hy hx hc]
    · have e1 := on_click_right_other maxTries g x y h0 hc
      have e2 : (on_click maxTries (on_click maxTries g 3 x y).1 3 x y).1 = g := by
        rw [e1]
        exact on_click_right_other maxTries g x y h0 hc
      exact ⟨by rw [e1], by rw [e1], fun h => absurd h h0, fun h => absurd h hc,
        fun _ => e1, e2⟩

/-- Witness for `secondary_click_toggle` on a one-cell grid with the cell
unmarked. -/
theorem secondary_click_toggle_witness :
    (on_click 3 (on_click 3 (Game.mk [[1]] 1 1 [["0"]] [[1]] [[1]] 3) 3 0 0).1 3 0 0).1
      = Game.mk [[1]] 1 1 [["0"]] [[1]] [[1]] 3 :=
  (secondary_click_toggle 3 (Game.mk [[1]] 1 1 [["0"]] [[1]] [[1]] 3) 0 0
    (by decide) (by decide)).2.2.2.2.2

lemma on_click_mistake_continue (maxTries : Int) (g : Game) (x y : Nat)
    (h0 : cellAt g y x = "0") (hw : ¬(solAt g (g.n_rows - y - 1) x = 1))
    (ht : ¬(g.tries_left - 1 = 0)) :
    on_click maxTries g 1 x y =
      ({ g with grid := setCell g.grid y x "x", tries_left := g.tries_left - 1 },
       Effect.mistakeDialog ::
         winEffects { g with grid := setCell g.grid y x "x", tries_left := g.tries_left - 1 }) := by
  simp [on_click, h0, hw, ht]

lemma on_click_mistake_gameover (maxTries : Int) (g : Game) (x y : Nat)
    (h0 : cellAt g y x = "0") (hw : ¬(solAt g (g.n_rows - y - 1) x = 1))
    (ht : g.tries_left - 1 = 0) :
    on_click maxTries g 1 x y =
      (restart_game maxTries
        { g with grid := setCell g.grid y x "x", tries_left := g.tries_left - 1 },
       [Effect.gameOverDialog, Effect.restartPerformed]) := by
  simp [on_click, h0, hw, ht]

/-- C3: a primary click on an unmarked cell whose solution value is empty
marks the cell `"x"` and decrements the tries counter by exactly one; when the
counter thereby reaches `0`, the same operation shows the game-over dialog of
the triggering click and then restarts, leaving the play grid all-unmarked and
the counter back at the configured maximum, the dialog preceding the restart
in the effect trace.  Moreover the concrete scenario with `MAX_TRIES = 3`:
three consecutive mistaken primary clicks on three distinct wrong unmarked
cells drive the counter `3 → 2 → 1 → 0` and trigger the automatic restart. -/
theorem mistaken_primary_click (maxTries : Int) (g : Game) (x y : Nat)
    (hy : y < g.grid.length) (hx : x < (g.grid.getD y []).length)
    (h0 : cellAt g y x = "0") (hw : ¬(solAt g (g.n_rows - y - 1) x = 1)) :
    (¬(g.tries_left - 1 = 0) →
      (on_click maxTries g 1 x y).1 =
          { g with grid := setCell g.grid y x "x", tries_left := g.tries_left - 1 } ∧
        cellAt (on_click maxTries g 1 x y).1 y x = "x") ∧
    (g.tries_left - 1 = 0 →
      on_click maxTries g 1 x y =
          (restart_game maxTries
            { g with grid := setCell g.grid y x "x", tries_left := g.tries_left - 1 },
           [Effect.gameOverDialog, Effect.restartPerformed]) ∧
        (on_click maxTries g 1 x y).1.grid = emptyGrid g.n_rows g.n_columns ∧
        (on_click maxTries g 1 x y).1.tries_left = maxTries) ∧
    ((on_click 3 (initGame 3 [[0, 0], [0, 1]]) 1 0 0).1.tries_left = 2 ∧
      (on_click 3 (on_click 3 (initGame 3 [[0, 0], [0, 1]]) 1 0 0).1 1 0 1).1.tries_left = 1 ∧
      on_click 3 (on_click 3 (on_click 3 (initGame 3 [[0, 0], [0, 1]]) 1 0 0).1 1 0 1).1 1 1 1
        = (initGame 3 [[0, 0], [0, 1]], [Effect.gameOverDialog, Effect.restartPerformed])) := by
  refine ⟨?_, ?_, by decide⟩
  · intro ht
    have e := on_click_mistake_continue maxTries g x y h0 hw ht
    refine ⟨by rw [e], ?_⟩
    rw [e]
    show ((setCell g.grid y x "x").getD y []).getD x "" = "x"
    exact getD_setCell_self g.grid y x "x" hy hx
  · intro ht
    have e := on_click_mistake_gameover maxTries g x y h0 hw ht
    exact ⟨e, by rw [e]; rfl, by rw [e]; rfl⟩

/-- Witness for `mistaken_primary_click`: the first mistaken click on the
fresh demo puzzle crosses the cell and leaves two tries. -/
theorem mistaken_primary_click_witness :
    (on_click 3 (initGame 3 [[0, 0], [0, 1]]) 1 0 0).1 =
        { initGame 3 [[0, 0], [0, 1]] with
          grid := setCell (initGame 3 [[0, 0], [0, 1]]).grid 0 0 "x"
          tries_left := (initGame 3 [[0, 0], [0, 1]]).tries_left - 1 } ∧
      cellAt (on_click 3 (initGame 3 [[0, 0], [0, 1]]) 1 0 0).1 0 0 = "x" :=
  (mistaken_primary_click 3 (initGame 3 [[0, 0], [0, 1]]) 0 0
    (by decide) (by decide) (by decide) (by decide)).1 (by decide)

/-- C4: `load_puzzle` fails exactly when the requested identifier has no
stored puzzle resource, and on failure it is atomic: the state — solution,
play grid, hints, dimensions, tries counter — is returned untouched. -/
theorem load_puzzle_not_found (maxTries : Int) (env : Nat → Option (List (List Nat)))
    (g : Game) (n : Nat) :
    ((load_puzzle maxTries env g n).2 = LoadResult.puzzleNotFound ↔ env n = none) ∧
    (env n = none → load_puzzle maxTries env g n = (g, LoadResult.puzzleNotFound)) := by
  unfold load_puzzle get_solution
  cases h : env n with
  | none => simp
  | some sol => simp

/-- Witness for `load_puzzle_not_found` with an empty puzzle store. -/
theorem load_puzzle_not_found_witness :
    load_puzzle 3 (fun _ => none) (initGame 3 [[1]]) 2
      = (initGame 3 [[1]], LoadResult.puzzleNotFound) :=
  (load_puzzle_not_found 3 (fun _ => none) (initGame 3 [[1]]) 2).2 rfl

lemma getD_set_ne {α : Type} (l : List α) (i j : Nat) (a d : α) (h : i ≠ j) :
    (l.set i a).getD j d = l.getD j d := by
  rw [List.getD_eq_getElem?_getD, List.getElem?_set_ne h, ← List.getD_eq_getElem?_getD]

lemma getD_set_self_of_lt {α : Type} (l : List α) (i : Nat) (a d : α)
    (h : i < l.length) :
    (l.set i a).getD i d = a := by
  rw [List.getD_eq_getElem?_getD, List.getElem?_set_self (by simpa using h)]
  rfl

lemma cellAt_setCell_cases (grid : List (List String)) (y x : Nat) (v : String)
    (y' x' : Nat) :
    ((setCell grid y x v).getD y' []).getD x' "" = (grid.getD y' []).getD x' "" ∨
    (y' = y ∧ x' = x ∧ ((setCell grid y x v).getD y' []).getD x' "" = v) := by
  unfold setCell
  by_cases hyy : y = y'
  · subst hyy
    by_cases hy : y < grid.length
    · rw [getD_set_row grid y _ hy]
      by_cases hxx : x = x'
      · subst hxx
        by_cases hx : x < (grid.getD y []).length
        · exact Or.inr ⟨rfl, rfl, getD_set_self_of_lt _ _ _ _ hx⟩
        · rw [List.set_eq_of_length_le (by omega)]
          exact Or.inl rfl
      · exact Or.inl (getD_set_ne _ _ _ _ _ hxx)
    · rw [List.set_eq_of_length_le (by omega)]
      exact Or.inl rfl
  · refine Or.inl ?_
    rw [getD_set_ne grid y y' _ [] hyy]

lemma cellAt_emptyGrid_ne_one (rows cols y x : Nat) :
    ¬(((emptyGrid rows cols).getD y []).getD x "" = "1") := by
  have hrow : (emptyGrid rows cols).getD y []
      = if y < rows then List.replicate cols "0" else [] := by
    unfold emptyGrid
    rw [List.getD_eq_getElem?_getD, List.getElem?_replicate]
    by_cases hy : y < rows
    · rw [if_pos hy, if_pos hy]
      rfl
    · rw [if_neg hy, if_neg hy]
      rfl
  rw [hrow]
  by_cases hy : y < rows
  · rw [if_pos hy]
    rw [List.getD_eq_getElem?_getD, List.getElem?_replicate]
    by_cases hx : x < cols
    · rw [if_pos hx]
      decide
    · rw [if_neg hx]
      decide
  · rw [if_neg hy]
    intro h
    simp at h

/-- Invariant behind C7: a play-grid cell reads `"1"` only where the solution
(consulted through the same row flip `n_rows - y - 1` that `on_click` and
`check_state` use) marks the cell filled. -/
def FilledCorrect (g : Game) : Prop :=
  ∀ y x : Nat, cellAt g y x = "1" → solAt g (g.n_rows - y - 1) x = 1

lemma filledCorrect_init (maxTries : Int) (sol : List (List Nat)) :
    FilledCorrect (initGame maxTries sol) := by
  intro y x hcell
  exact absurd hcell (cellAt_emptyGrid_ne_one sol.length (sol.headD []).length y x)

lemma filledCorrect_restart (maxTries : Int) (g : Game) :
    FilledCorrect (restart_game maxTries g) := by
  intro y x hcell
  exact absurd hcell (cellAt_emptyGrid_ne_one g.n_rows g.n_columns y x)

lemma filledCorrect_click (maxTries : Int) (g : Game) (button x y : Nat)
    (hg : FilledCorrect g) : FilledCorrect (on_click maxTries g button x y).1 := by
  by_cases hb1 : button = 1
  · subst hb1
    by_cases h0 : cellAt g y x = "0"
    · by_cases hs : solAt g (g.n_rows - y - 1) x = 1
      · have e : (on_click maxTries g 1 x y).1 = { g with grid := setCell g.grid y x "1" } := by
          simp [on_click, h0, hs]
        rw [e]
        intro y' x' hcell
        rcases cellAt_setCell_cases g.grid y x "1" y' x' with hc | ⟨hy', hx', _⟩
        · exact hg y' x' (hc.symm.trans hcell)
        · subst hy'
          subst hx'
          exact hs
      · by_cases ht : g.tries_left - 1 = 0
        · have e := on_click_mistake_gameover maxTries g x y h0 hs ht
          rw [show (on_click maxTries g 1 x y).1 =
              restart_game maxTries
                { g with grid := setCell g.grid y x "x", tries_left := g.tries_left - 1 }
              from by rw [e]]
          exact filledCorrect_restart maxTries _
        · have e := on_click_mistake_continue maxTries g x y h0 hs ht
          rw [show (on_click maxTries g 1 x y).1 =
              { g with grid := setCell g.grid y x "x", tries_left := g.tries_left - 1 }
              from by rw [e]]
          intro y' x' hcell
          rcases cellAt_setCell_cases g.grid y x "x" y' x' with hc | ⟨_, _, hv⟩
          · exact hg y' x' (hc.symm.trans hcell)
          · exact absurd (hv.symm.trans hcell) (by decide)
    · have e : (on_click maxTries g 1 x y).1 = g := by simp [on_click, h0]
      rw [e]
      exact hg
  · by_cases hb3 : button = 3
    · subst hb3
      by_cases h0 : cellAt g y x = "0"
      · rw [on_click_right_zero maxTries g x y h0]
        intro y' x' hcell
        rcases cellAt_setCell_cases g.grid y x "x" y' x' with hc | ⟨_, _, hv⟩
        · exact hg y' x' (hc.symm.trans hcell)
        · exact absurd (hv.symm.trans hcell) (by decide)
      · by_cases hc : cellAt g y x = "x"
        · rw [on_click_right_cross maxTries g x y hc]
          intro y' x' hcell
          rcases cellAt_setCell_cases g.grid y x "0" y' x' with hcc | ⟨_, _, hv⟩
          · exact hg y' x' (hcc.symm.trans hcell)
          · exact absurd (hv.symm.trans hcell) (by decide)
        · rw [on_click_right_other maxTries g x y h0 hc]
          exact hg
    · have e : (on_click maxTries g button x y).1 = g := by simp [on_click, hb1, hb3]
      rw [e]
      exact hg

lemma filledCorrect_load (maxTries : Int) (env : Nat → Option (List (List Nat)))
    (g : Game) (n : Nat) (hg : FilledCorrect g) :
    FilledCorrect (load_puzzle maxTries env g n).1 := by
  unfold load_puzzle get_solution
  cases henv : env n with
  | none => exact hg
  | some sol =>
    intro y x hcell
    exact absurd hcell (cellAt_emptyGrid_ne_one _ _ y x)

lemma reachable_filledCorrect (maxTries : Int) (env : Nat → Option (List (List Nat)))
    (g : Game) (hg : Reachable maxTries env g) : FilledCorrect g := by
  induction hg with
  | start sol => exact filledCorrect_init maxTries sol
  | click g button x y hg hy hx ih => exact filledCorrect_click maxTries g button x y ih
  | restart g hg ih => exact filledCorrect_restart maxTries g
  | load g n hg ih => exact filledCorrect_load maxTries env g n ih

/-- C7: in every state reachable from a fresh start by in-bounds primary and
secondary clicks, restarts, and puzzle loads, a play-grid cell reads `"1"`
only if the solution marks the corresponding cell (row `n_rows - y - 1`,
same column) filled: no operation ever produces an incorrectly filled cell. -/
theorem filled_cells_always_correct (maxTries : Int)
    (env : Nat → Option (List (List Nat))) (g : Game)
    (hg : Reachable maxTries env g) (y x : Nat) (hcell : cellAt g y x = "1") :
    solAt g (g.n_rows - y - 1) x = 1 :=
  reachable_filledCorrect maxTries env g hg y x hcell

/-- Witness for `filled_cells_always_correct`: after one correct primary
click on the one-cell puzzle `[[1]]`, the filled cell is indeed correct. -/
theorem filled_cells_always_correct_witness :
    solAt (on_click 3 (initGame 3 [[1]]) 1 0 0).1
      ((on_click 3 (initGame 3 [[1]]) 1 0 0).1.n_rows - 0 - 1) 0 = 1 :=
  filled_cells_always_correct 3 (fun _ => none)
    (on_click 3 (initGame 3 [[1]]) 1 0 0).1
    (Reachable.click (initGame 3 [[1]]) 1 0 0 (Reachable.start [[1]])
      (by decide) (by decide))
    0 0 (by decide)

lemma reachable_tries_ge_one (maxTries : Int) (env : Nat → Option (List (List Nat)))
    (h1 : 1 ≤ maxTries) (g : Game) (hg : Reachable maxTries env g) :
    1 ≤ g.tries_left ∧ g.tries_left ≤ maxTries := by
  induction hg with
  | start sol => exact ⟨h1, le_refl _⟩
  | click g button x y hg hy hx ih =>
    by_cases hb1 : button = 1
    · subst hb1
      by_cases h0 : cellAt g y x = "0"
      · by_cases hs : solAt g (g.n_rows - y - 1) x = 1
        · have e : (on_click maxTries g 1 x y).1
              = { g with grid := setCell g.grid y x "1" } := by
            simp [on_click, h0, hs]
          rw [e]
          exact ih
        · by_cases ht : g.tries_left - 1 = 0
          · rw [on_click_mistake_gameover maxTries g x y h0 hs ht]
            exact ⟨h1, le_refl _⟩
          · rw [on_click_mistake_continue maxTries g x y h0 hs ht]
            obtain ⟨ih1, ih2⟩ := ih
            constructor
            · show 1 ≤ g.tries_left - 1
              omega
            · show g.tries_left - 1 ≤ maxTries
              omega
      · have e : (on_click maxTries g 1 x y).1 = g := by simp [on_click, h0]
        rw [e]
        exact ih
    · by_cases hb3 : button = 3
      · subst hb3
        by_cases h0 : cellAt g y x = "0"
        · rw [on_click_right_zero maxTries g x y h0]
          exact ih
        · by_cases hc : cellAt g y x = "x"
          · rw [on_click_right_cross maxTries g x y hc]
            exact ih
          · rw [on_click_right_other maxTries g x y h0 hc]
            exact ih
      · have e : (on_click maxTries g button x y).1 = g := by
          simp [on_click, hb1, hb3]
        rw [e]
        exact ih
  | restart g hg ih => exact ⟨h1, le_refl _⟩
  | load g n hg ih =>
    unfold load_puzzle get_solution
    cases henv : env n with
    | none => exact ih
    | some sol => exact ⟨h1, le_refl _⟩

/-- C8: with a configured maximum of at least one try, the tries counter is
an integer that starts at the maximum, is reset to the maximum by
`restart_game` and by every successful `load_puzzle`, changes under a click
only by the exact decrement of a confirmed mistake (or the reset of the
automatic restart the moment it would reach `0`), and stays within
`[0, maxTries]` in every reachable state. -/
theorem tries_counter_bounds (maxTries : Int) (env : Nat → Option (List (List Nat)))
    (h1 : 1 ≤ maxTries) :
    (∀ sol, (initGame maxTries sol).tries_left = maxTries) ∧
    (∀ g, (restart_game maxTries g).tries_left = maxTries) ∧
    (∀ g n, (load_puzzle maxTries env g n).2 = LoadResult.ok →
      (load_puzzle maxTries env g n).1.tries_left = maxTries) ∧
    (∀ g : Game, ∀ button x y : Nat,
      (on_click maxTries g button x y).1.tries_left = g.tries_left ∨
      (button = 1 ∧ cellAt g y x = "0" ∧ ¬(solAt g (g.n_rows - y - 1) x = 1) ∧
        ((on_click maxTries g button x y).1.tries_left = g.tries_left - 1 ∨
          (g.tries_left - 1 = 0 ∧
            (on_click maxTries g button x y).1.tries_left = maxTries)))) ∧
    (∀ g, Reachable maxTries env g → 0 ≤ g.tries_left ∧ g.tries_left ≤ maxTries) := by
  refine ⟨fun sol => rfl, fun g => rfl, ?_, ?_, ?_⟩
  · intro g n h
    unfold load_puzzle get_solution at h ⊢
    cases henv : env n with
    | none =>
      rw [henv] at h
      exact LoadResult.noConfusion h
    | some sol => rfl
  · intro g button x y
    by_cases hb1 : button = 1
    · subst hb1
      by_cases h0 : cellAt g y x = "0"
      · by_cases hs : solAt g (g.n_rows - y - 1) x = 1
        · left
          have e : (on_click maxTries g 1 x y).1
              = { g with grid := setCell g.grid y x "1" } := by
            simp [on_click, h0, hs]
          rw [e]
        · right
          refine ⟨rfl, h0, hs, ?_⟩
          by_cases ht : g.tries_left - 1 = 0
          · right
            refine ⟨ht, ?_⟩
            rw [on_click_mistake_gameover maxTries g x y h0 hs ht]
            rfl
          · left
            rw [on_click_mistake_continue maxTries g x y h0 hs ht]
      · left
        have e : (on_click maxTries g 1 x y).1 = g := by simp [on_click, h0]
        rw [e]
    · left
      by_cases hb3 : button = 3
      · subst hb3
        by_cases h0 : cellAt g y x = "0"
        · rw [on_click_right_zero maxTries g x y h0]
        · by_cases hc : cellAt g y x = "x"
          · rw [on_click_right_cross maxTries g x y hc]
          · rw [on_click_right_other maxTries g x y h0 hc]
      · have e : (on_click maxTries g button x y).1 = g := by
          simp [on_click, hb1, hb3]
        rw [e]
  · intro g hg
    obtain ⟨h2, h3⟩ := reachable_tries_ge_one maxTries env h1 g hg
    exact ⟨by omega, h3⟩

/-- Witness for `tries_counter_bounds`: the fresh state of the one-cell
puzzle has its counter within bounds. -/
theorem tries_counter_bounds_witness :
    0 ≤ (initGame 3 [[1]]).tries_left ∧ (initGame 3 [[1]]).tries_left ≤ 3 :=
  (tries_counter_bounds 3 (fun _ => none) (by decide)).2.2.2.2
    (initGame 3 [[1]]) (Reachable.start [[1]])

/-- Fold of primary clicks: the player primary-clicks each position of `L`
(play coordinates `(y, x)`) in order. -/
def clickAll (maxTries : Int) (L : List (Nat × Nat)) (g : Game) : Game :=
  L.foldl (fun h p => (on_click maxTries h 1 p.2 p.1).1) g

/-- Well-formedness carried through a run of correct clicks on `sol`: the
solution and dimensions are those of `sol`, the grid is rectangular of the
same dimensions, and every in-bounds cell is `"0"` or `"1"`. -/
def GoodState (sol : List (List Nat)) (g : Game) : Prop :=
  g.solution = sol ∧ g.n_rows = sol.length ∧ g.n_columns = (sol.headD []).length ∧
  g.grid.length = sol.length ∧
  (∀ row ∈ g.grid, row.length = (sol.headD []).length) ∧
  (∀ y x : Nat, y < sol.length → x < (sol.headD []).length →
    cellAt g y x = "0" ∨ cellAt g y x = "1")

lemma goodState_init (maxTries : Int) (sol : List (List Nat)) :
    GoodState sol (initGame maxTries sol) := by
  refine ⟨rfl, rfl, rfl, by simp [initGame, emptyGrid], ?_, ?_⟩
  · intro row hrow
    have hrep : row = List.replicate (sol.headD []).length "0" :=
      List.eq_of_mem_replicate hrow
    rw [hrep, List.length_replicate]
  · intro y x hy hx
    left
    show ((emptyGrid sol.length (sol.headD []).length).getD y []).getD x "" = "0"
    unfold emptyGrid
    rw [List.getD_eq_getElem _ [] (by simpa using hy), List.getElem_replicate,
      List.getD_eq_getElem _ "" (by simpa using hx), List.getElem_replicate]

lemma click_correct_step (maxTries : Int) (sol : List (List Nat)) (g : Game)
    (p : Nat × Nat) (hg : GoodState sol g)
    (hp : p.1 < sol.length ∧ p.2 < (sol.headD []).length ∧
      (sol.getD (sol.length - p.1 - 1) []).getD p.2 0 = 1) :
    GoodState sol (on_click maxTries g 1 p.2 p.1).1 ∧
    cellAt (on_click maxTries g 1 p.2 p.1).1 p.1 p.2 = "1" ∧
    (∀ y x : Nat, cellAt g y x = "1" →
      cellAt (on_click maxTries g 1 p.2 p.1).1 y x = "1") := by
  obtain ⟨hsol, hrows, hcols, hlen, hrowlen, hcells⟩ := hg
  obtain ⟨hy, hx, hfill⟩ := hp
  have hyg : p.1 < g.grid.length := by omega
  have hrowmem : g.grid.getD p.1 [] ∈ g.grid := by
    rw [List.getD_eq_getElem _ [] hyg]
    exact List.getElem_mem hyg
  have hxg : p.2 < (g.grid.getD p.1 []).length := by
    rw [hrowlen _ hrowmem]
    exact hx
  have hsAt : solAt g (g.n_rows - p.1 - 1) p.2 = 1 := by
    show (g.solution.getD (g.n_rows - p.1 - 1) []).getD p.2 0 = 1
    rw [hsol, hrows]
    exact hfill
  by_cases h0 : cellAt g p.1 p.2 = "0"
  · have e : (on_click maxTries g 1 p.2 p.1).1
        = { g with grid := setCell g.grid p.1 p.2 "1" } := by
      simp [on_click, h0, hsAt]
    refine ⟨?_, ?_, ?_⟩
    · rw [e]
      refine ⟨hsol, hrows, hcols, ?_, ?_, ?_⟩
      · show (setCell g.grid p.1 p.2 "1").length = sol.length
        unfold setCell
        rw [List.length_set]
        exact hlen
      · intro row hrow
        have hmem := List.mem_or_eq_of_mem_set hrow
        rcases hmem with hmem | hmem
        · exact hrowlen row hmem
        · rw [hmem, List.length_set]
          exact hrowlen _ hrowmem
      · intro y x hy' hx'
        rcases cellAt_setCell_cases g.grid p.1 p.2 "1" y x with hc | ⟨_, _, hv⟩
        · rcases hcells y x hy' hx' with h | h
          · exact Or.inl (hc.trans h)
          · exact Or.inr (hc.trans h)
        · exact Or.inr hv
    · rw [e]
      show ((setCell g.grid p.1 p.2 "1").getD p.1 []).getD p.2 "" = "1"
      exact getD_setCell_self g.grid p.1 p.2 "1" hyg hxg
    · intro y x h1
      rw [e]
      rcases cellAt_setCell_cases g.grid p.1 p.2 "1" y x with hc | ⟨_, _, hv⟩
      · exact hc.trans h1
      · exact hv
  · have h1 : cellAt g p.1 p.2 = "1" := by
      rcases hcells p.1 p.2 hy hx with h | h
      · exact absurd h h0
      · exact h
    have e : (on_click maxTries g 1 p.2 p.1).1 = g := by simp [on_click, h0]
    rw [e]
    exact ⟨⟨hsol, hrows, hcols, hlen, hrowlen, hcells⟩, h1, fun y x h => h⟩

lemma clickAll_marks (maxTries : Int) (sol : List (List Nat)) :
    ∀ (L : List (Nat × Nat)) (g : Game), GoodState sol g →
      (∀ p ∈ L, p.1 < sol.length ∧ p.2 < (sol.headD []).length ∧
        (sol.getD (sol.length - p.1 - 1) []).getD p.2 0 = 1) →
      GoodState sol (clickAll maxTries L g) ∧
      (∀ p ∈ L, cellAt (clickAll maxTries L g) p.1 p.2 = "1") ∧
      (∀ y x : Nat, cellAt g y x = "1" → cellAt (clickAll maxTries L g) y x = "1") := by
  intro L
  induction L with
  | nil =>
    intro g hg _
    exact ⟨hg, by simp, fun y x h => h⟩
  | cons p L ih =>
    intro g hg hcor
    have step := click_correct_step maxTries sol g p hg (hcor p (List.mem_cons_self p L))
    obtain ⟨hg1, hcell1, hpres1⟩ := step
    obtain ⟨hgf, hallf, hpresf⟩ :=
      ih ((on_click maxTries g 1 p.2 p.1).1) hg1
        (fun q hq => hcor q (List.mem_cons_of_mem p hq))
    refine ⟨hgf, ?_, fun y x h => hpresf y x (hpres1 y x h)⟩
    intro q hq
    rcases List.mem_cons.1 hq with h | h
    · subst h
      exact hpresf q.1 q.2 hcell1
    · exact hallf q h

lemma check_state_of_allFilled (sol : List (List Nat)) (g : Game)
    (hgood : GoodState sol g)
    (hall : ∀ y x : Nat, y < sol.length → x < (sol.headD []).length →
      (sol.getD (sol.length - y - 1) []).getD x 0 = 1 → cellAt g y x = "1") :
    check_state g = true := by
  rw [check_state_iff_aux]
  intro r c hr hc hs
  obtain ⟨hsol, hrows, hcols, _, _, _⟩ := hgood
  rw [hrows] at hr ⊢
  rw [hcols] at hc
  apply hall (sol.length - r - 1) c (by omega) hc
  rw [show sol.length - (sol.length - r - 1) - 1 = r from by omega]
  unfold solAt at hs
  rw [hsol] at hs
  exact hs

/-- C5: starting from a fresh game, one correct primary click on every
position the solution marks filled (play coordinates `(n_rows - r - 1, c)`
for each filled solution cell `(r, c)`), and nothing else, leaves
`check_state` true — the coordinate flip used by `on_click` to consult the
solution agrees with the one used by `check_state`, and cells the solution
leaves empty are irrelevant. -/
theorem correct_clicks_win (maxTries : Int) (sol : List (List Nat))
    (L : List (Nat × Nat))
    (hcorrect : ∀ p ∈ L, p.1 < sol.length ∧ p.2 < (sol.headD []).length ∧
      (sol.getD (sol.length - p.1 - 1) []).getD p.2 0 = 1)
    (hcover : ∀ y x : Nat, y < sol.length → x < (sol.headD []).length →
      (sol.getD (sol.length - y - 1) []).getD x 0 = 1 → (y, x) ∈ L) :
    check_state (clickAll maxTries L (initGame maxTries sol)) = true := by
  obtain ⟨hgf, hallf, _⟩ :=
    clickAll_marks maxTries sol L (initGame maxTries sol)
      (goodState_init maxTries sol) hcorrect
  apply check_state_of_allFilled sol _ hgf
  intro y x hy hx hfill
  exact hallf (y, x) (hcover y x hy hx hfill)

/-- Witness for `correct_clicks_win`: clicking the two filled cells of
`[[1,0],[0,1]]` at their play positions wins. -/
theorem correct_clicks_win_witness :
    check_state (clickAll 3 [(1, 0), (0, 1)] (initGame 3 [[1, 0], [0, 1]])) = true :=
  correct_clicks_win 3 [[1, 0], [0, 1]] [(1, 0), (0, 1)] (by decide)
    (by
      intro y x hy hx hfill
      have hy2 : y < 2 := by simpa using hy
      have hx2 : x < 2 := by simpa using hx
      interval_cases y <;> interval_cases x <;> revert hfill <;> decide)
